import Mathlib

/-!
# TheMovieDB search provider: embedding of `movies/extension.js` and `movies/api.js`

The provider is a GJS object driven by the shell's single-threaded main loop.
The embedding makes the mutable parts explicit:

* `Provider` holds the fields of the provider object that the search path
  reads or writes (`resultsMap`, `_timeoutId`, `_language`, `_api.language`);
* `World` adds what lives outside that object: the timers armed on the main
  loop, the remote search calls issued through `Api.get`, the invocations of
  host callbacks, and the module-level reference used by `enable`/`disable`.

A JavaScript exception is a value of `Except JsError`.
-/

set_option linter.unusedVariables false

namespace Movies

/-! ## Data model -/

/-- Identifier handed to the host: entity ids are what the JSON response carries
(numbers for TheMovieDB), message ids are strings. -/
inductive Ident where
  | num (n : Int)
  | str (s : String)
deriving DecidableEq, Repr

/-- One element of `result.results`, with the fields the provider reads. -/
structure Entity where
  id : Ident
  title : String
  overview : String
  release_date : String
  poster_path : Option String
deriving DecidableEq, Repr

/-- Parsed response body: `results` is absent in the literal `{}` that the
provider passes on the untriggered path. -/
structure Response where
  results : Option (List Entity)
deriving DecidableEq, Repr

/-- Exceptions raised by the JavaScript runtime. -/
inductive JsError where
  | typeError
deriving DecidableEq, Repr

deriving instance DecidableEq for Except

/-- Handle of a host callback (the shell's function object). -/
abbrev Callback := Nat

/-- A timeout source armed by `Mainloop.timeout_add`; its closure captures
`terms` and `callback`. -/
structure Timer where
  id : Nat
  terms : List String
  callback : Callback
deriving DecidableEq, Repr

/-- A remote search issued by `Api.searchEntities`; the response callback is
`_getResultSet` bound to `callback` and `timeoutId`. -/
structure Request where
  query : String
  language : String
  callback : Callback
  timeoutId : Nat
deriving DecidableEq, Repr

/-- Fields of the provider object. `resultsMap` is a JavaScript `Map`, kept
as an association list in insertion order. -/
structure Provider where
  resultsMap : List (Ident × Entity)
  timeoutId : Nat
  language : String
  apiLanguage : String
deriving DecidableEq, Repr

/-- The provider together with its environment. -/
structure World where
  provider : Provider
  timers : List Timer
  requests : List Request
  calls : List (Callback × List Ident)
  registered : Bool
  theMovieDBSearchProvider : Bool
deriving DecidableEq, Repr

/-! ## Constants of `api.js` -/

def API_POSTER_PATH : String := "http://image.tmdb.org/t/p/"

def API_POSTER_DEFAULT_SIZE : String := "w185"

def DEFAULT_LANG : String := "en"

def LIMIT_VIEW : String := "10"

/-! ## JavaScript primitives used by the provider -/

/-- The call `s.substr(start, len)`. -/
def substr (s : String) (start len : Nat) : String :=
  ⟨(s.data.drop start).take len⟩

/-- The call `xs.join(sep)`. -/
def join (sep : String) : List String → String
  | [] => ""
  | [x] => x
  | x :: y :: rest => x ++ sep ++ join sep (y :: rest)

/-- Splitting a character sequence at every occurrence of `sep`. -/
def splitChars (sep : Char) : List Char → List (List Char)
  | [] => [[]]
  | c :: cs =>
    if c = sep then [] :: splitChars sep cs
    else
      match splitChars sep cs with
      | [] => [[c]]
      | p :: ps => (c :: p) :: ps

/-- The call `s.split(sep)` for a one-character separator. -/
def split (s : String) (sep : Char) : List String :=
  (splitChars sep s.data).map String.mk

/-- Value of a sequence of decimal digits, most significant first. -/
def digitsValue (cs : List Char) : Nat :=
  cs.foldl (fun n c => 10 * n + (c.toNat - 48)) 0

/-- Numeric coercion applied by `slice` to a string bound: a string of decimal
digits is read as that number, anything else counts as `0`. -/
def toInteger (s : String) : Nat :=
  if s.data.all Char.isDigit then digitsValue s.data else 0

/-- The call `xs.slice(0, end)` for a non-negative `end`. -/
def slice0 {α : Type} (xs : List α) (e : Nat) : List α :=
  xs.take e

/-- Truthiness of a value that is `null` or a string. -/
def truthy : Option String → Bool
  | none => false
  | some s => s != ""

/-- The call `map.get(key)`. -/
def mapGet (m : List (Ident × Entity)) (k : Ident) : Option Entity :=
  match m with
  | [] => none
  | (k', v) :: rest => if k' = k then some v else mapGet rest k

/-- The call `map.set(key, value)`: overwrite in place or append. -/
def mapSet (m : List (Ident × Entity)) (k : Ident) (v : Entity) : List (Ident × Entity) :=
  match m with
  | [] => [(k, v)]
  | (k', v') :: rest => if k' = k then (k, v) :: rest else (k', v') :: mapSet rest k v

/-! ## `Api` -/

namespace Api

/-- Getter `limit`. -/
def limit : String := LIMIT_VIEW

/-- Getter `defaultLanguage`. -/
def defaultLanguage : String := DEFAULT_LANG

/-- Getter `apiPosterPath`. -/
def apiPosterPath : String := API_POSTER_PATH

/-- Getter `apiPosterSize`. -/
def apiPosterSize : String := API_POSTER_DEFAULT_SIZE

/-- The call `searchEntities(term, callback)`: `get` queues one HTTP request
whose completion handler will call `callback`. -/
def searchEntities (term : String) (callback : Callback) (timeoutId : Nat) (w : World) : World :=
  { w with requests := w.requests ++ [⟨term, w.provider.apiLanguage, callback, timeoutId⟩] }

end Api

/-! ## `TheMovieDBSearchProvider` -/

def loadingId : Ident := .str "__loading__"

def errorId : Ident := .str "__error__"

/-- The property key an identifier is converted to by `in` and by `[...]`:
a string is its own key, a number is its decimal text. -/
def propertyKey : Ident → String
  | .str s => s
  | .num n => toString n

/-- The test `identifier in this._messages`. `_messages` is an object literal
with the own keys `__loading__` and `__error__`; `in` also answers true for
every name the object inherits from `Object.prototype`. That table belongs to
the runtime and is the parameter `inherited`. -/
def inMessages (inherited : List String) (identifier : Ident) : Bool :=
  propertyKey identifier == "__loading__" || propertyKey identifier == "__error__" ||
    inherited.contains (propertyKey identifier)

/-- Invocation of a host callback with an identifier list. -/
def invoke (callback : Callback) (arg : List Ident) (w : World) : World :=
  { w with calls := w.calls ++ [(callback, arg)] }

/-- Method `showMessage`. -/
def showMessage (identifier : Ident) (callback : Callback) (w : World) : World :=
  invoke callback [identifier] w

/-- Method `_getQuery`. -/
def _getQuery (terms : List String) : String :=
  join " " (terms.drop 1)

/-- The `forEach` body of `_getResultSet`: store the entity, push its id. -/
def storeResults (m : List (Ident × Entity)) : List Entity → List (Ident × Entity)
  | [] => m
  | e :: es => storeResults (mapSet m e.id e) es

/-- The guard of `_getResultSet`:
`timeoutId === this._timeoutId && result.results && result.results.length > 0`.
The conjunction is evaluated left to right, so `result.results` is read only
when the tokens agree; reading it on a `null` result raises a `TypeError`.
When the guard holds the non-empty list is returned. -/
def resultGuard (result : Option Response) (timeoutId : Nat) (w : World) :
    Except JsError (Option (List Entity)) :=
  if timeoutId = w.provider.timeoutId then
    match result with
    | none => .error .typeError
    | some r =>
      match r.results with
      | some (e :: es) => .ok (some (e :: es))
      | _ => .ok none
  else .ok none

/-- Method `_getResultSet`. -/
def _getResultSet (error : Option String) (result : Option Response) (callback : Callback)
    (timeoutId : Nat) (w : World) : Except JsError World :=
  match resultGuard result timeoutId w with
  | .error x => .error x
  | .ok (some es) =>
    let w1 := { w with provider :=
      { w.provider with resultsMap := storeResults w.provider.resultsMap es } }
    .ok (invoke callback (es.map Entity.id) w1)
  | .ok none =>
    if truthy error then .ok (showMessage errorId callback w)
    else .ok (invoke callback [] w)

/-- The trigger test shared by both search entry points. -/
def triggered (terms : List String) : Bool :=
  decide (terms.length ≥ 2) && (substr (terms.headD "") 0 2 == "mv")

/-- The call `Mainloop.source_remove(id)`. -/
def source_remove (id : Nat) (w : World) : World :=
  { w with timers := w.timers.filter (fun t => t.id != id) }

/-- The call `Mainloop.timeout_add(1000, action)`, the main loop handing out
`newId` for the source. -/
def timeout_add (newId : Nat) (terms : List String) (callback : Callback) (w : World) : World :=
  { w with timers := w.timers ++ [⟨newId, terms, callback⟩] }

/-- Method `getInitialResultSet`; `newId` is the source id the main loop
returns if a timer is armed. -/
def getInitialResultSet (newId : Nat) (terms : List String) (callback : Callback) (w : World) :
    Except JsError World :=
  if triggered terms then
    let w1 := showMessage loadingId callback w
    let w2 :=
      if w1.provider.timeoutId > 0 then
        let w' := source_remove w1.provider.timeoutId w1
        { w' with provider := { w'.provider with timeoutId := 0 } }
      else w1
    let w3 := timeout_add newId terms callback w2
    .ok { w3 with provider := { w3.provider with timeoutId := newId } }
  else
    _getResultSet none (some ⟨none⟩) callback 0 w

/-- Method `getSubsetResultSearch`. -/
def getSubsetResultSearch (newId : Nat) (previousResults : List Ident) (terms : List String)
    (callback : Callback) (w : World) : Except JsError World :=
  if triggered terms then
    let w1 := showMessage loadingId callback w
    let w2 :=
      if w1.provider.timeoutId > 0 then
        let w' := source_remove w1.provider.timeoutId w1
        { w' with provider := { w'.provider with timeoutId := 0 } }
      else w1
    let w3 := timeout_add newId terms callback w2
    .ok { w3 with provider := { w3.provider with timeoutId := newId } }
  else
    _getResultSet none (some ⟨none⟩) callback 0 w

/-- The language the timer action sets on the `Api`:
`this._language` if truthy, else the default. -/
def searchLanguage (p : Provider) : String :=
  if p.language != "" then p.language else Api.defaultLanguage

/-- The closure armed by the search entry points, run when its timer elapses.
It returns `undefined`, so the main loop drops the source afterwards. -/
def timerAction (t : Timer) (w : World) : World :=
  let w1 := { w with provider := { w.provider with apiLanguage := searchLanguage w.provider } }
  Api.searchEntities (_getQuery t.terms) t.callback w1.provider.timeoutId w1

/-- The main loop dispatching the armed timer `t`. -/
def fire (t : Timer) (w : World) : World :=
  let w1 := timerAction t w
  { w1 with timers := w1.timers.erase t }

/-- Method `filterResults`. -/
def filterResults {α : Type} (results : List α) (max : Nat) : List α :=
  let max := toInteger Api.limit
  slice0 results max

/-- What the `createIcon` entry of a descriptor is bound to: the stub
`createIcon` for the two messages, `_cachePoster` with the poster's local
name and remote URL for an entity. -/
inductive IconAction where
  | createIcon
  | cachePoster (icon_path icon_url : String)
deriving DecidableEq, Repr

/-- The descriptor `_getResultMeta` returns. -/
structure ResultMeta where
  id : Ident
  name : String
  description : String
  createIcon : IconAction
deriving DecidableEq, Repr

/-- What `_getResultMeta` can return: a descriptor, or the value that
`Object.prototype` holds under an inherited name. -/
inductive MetaValue where
  | descriptor (r : ResultMeta)
  | inherited (name : String)
deriving DecidableEq, Repr

/-- The own properties of `this._messages` by key, `gettext` translating the
texts. -/
def messages (gettext : String → String) (key : String) : Option ResultMeta :=
  if key = "__loading__" then
    some ⟨loadingId, "TheMovieDB", gettext "Loading items from TheMovieDB, please wait...",
      .createIcon⟩
  else if key = "__error__" then
    some ⟨errorId, "TheMovieDB", gettext "Oops, an error occurred while searching.",
      .createIcon⟩
  else none

/-- Method `_getResultMeta`. When `identifier in this._messages` holds the
result is `this._messages[identifier]`: an own descriptor, or else the
inherited value. Otherwise the entity is read from `resultsMap`; a missing
identifier makes `meta` undefined, and reading `meta.poster_path` raises a
`TypeError`. -/
def _getResultMeta (gettext : String → String) (inherited : List String) (identifier : Ident)
    (p : Provider) : Except JsError MetaValue :=
  if inMessages inherited identifier then
    match messages gettext (propertyKey identifier) with
    | some r => .ok (.descriptor r)
    | none => .ok (.inherited (propertyKey identifier))
  else
    match mapGet p.resultsMap identifier with
    | none => .error .typeError
    | some m =>
      let apiPosterPath := Api.apiPosterPath
      let apiPosterSize := Api.apiPosterSize
      let icon_path := if truthy m.poster_path then m.poster_path.getD "" else ""
      let icon_url :=
        if truthy m.poster_path then
          apiPosterPath ++ "/" ++ apiPosterSize ++ "/" ++ m.poster_path.getD ""
        else ""
      let release_date := split m.release_date '-'
      .ok (.descriptor ⟨m.id, m.title ++ " (" ++ release_date.headD "undefined" ++ ")",
        m.overview, .cachePoster icon_path icon_url⟩)

/-- The part of a string before its first `-` (the whole string if it has none). -/
def beforeFirstDash (s : String) : String :=
  ⟨s.data.takeWhile (fun c => c != '-')⟩

/-- Function `disable`. -/
def disable (w : World) : World :=
  if w.theMovieDBSearchProvider then
    { w with registered := false, theMovieDBSearchProvider := false }
  else w

/-! ## Runs of the provider on the main loop -/

/-- One search call by the host, through either entry point. -/
structure Call where
  subset : Bool
  previousResults : List Ident
  newId : Nat
  terms : List String
  callback : Callback
deriving DecidableEq, Repr

/-- The search call `c` executed by the provider. -/
def Call.exec (c : Call) (w : World) : Except JsError World :=
  if c.subset then getSubsetResultSearch c.newId c.previousResults c.terms c.callback w
  else getInitialResultSet c.newId c.terms c.callback w

/-- The timer that a triggered call arms. -/
def Call.timer (c : Call) : Timer :=
  ⟨c.newId, c.terms, c.callback⟩

/-- What the main loop can dispatch to the provider. -/
inductive Event where
  | search (c : Call)
  | timeout (t : Timer)
  | response (r : Request) (error : Option String) (result : Option Response)
deriving DecidableEq, Repr

/-- An exception escaping a handler is reported by the runtime and the main
loop goes on with the state reached before the throw. -/
def settle (w : World) : Except JsError World → World
  | .ok w' => w'
  | .error _ => w

/-- One dispatch of the main loop. A timer fires only while it is armed and
a response arrives only for a request that was issued. -/
def step (w : World) : Event → World
  | .search c => settle w (c.exec w)
  | .timeout t => if t ∈ w.timers then fire t w else w
  | .response r error result =>
    if r ∈ w.requests then settle w (_getResultSet error result r.callback r.timeoutId w) else w

/-- Whether an event is a search call. -/
def Event.isSearch : Event → Bool
  | .search _ => true
  | _ => false

/-- A sequence of dispatches. -/
def run (w : World) (evs : List Event) : World :=
  evs.foldl step w

/-- A burst of search calls with no timer firing in between. -/
def runCalls (w : World) (cs : List Call) : World :=
  run w (cs.map Event.search)

/-- Letting every armed timer elapse, in arming order. -/
def fireAll (w : World) : World :=
  run w (w.timers.map Event.timeout)

/-- The last call of a burst that passes the trigger test. -/
def lastTriggered (cs : List Call) : Option Call :=
  (cs.filter (fun c => triggered c.terms)).getLast?

/-- The remote search that the timer of call `c` issues when it fires with
`_timeoutId` still equal to its id. -/
def Call.request (c : Call) (p : Provider) : Request :=
  ⟨_getQuery c.terms, searchLanguage p, c.callback, c.newId⟩

/-- A provider as `_init` leaves it, with language `lang`. -/
def initProvider (lang : String) : Provider :=
  ⟨[], 0, lang, DEFAULT_LANG⟩

/-- The world right after `enable()`. -/
def initWorld (lang : String) : World :=
  ⟨initProvider lang, [], [], [], true, true⟩

/-- The search call an event carries, if it is one. -/
def Event.call? : Event → Option Call
  | .search c => some c
  | _ => none

/-- The search calls of a run, in order. -/
def searchCalls (evs : List Event) : List Call :=
  evs.filterMap Event.call?

/-! ## The poster cache -/

def CACHE_FOLDER : String := ".cache/antergos-search-providers-gnome"

/-- An `St.Icon` as `_cachePoster` builds it. -/
structure Icon where
  gicon : String
  style_class : String
deriving DecidableEq, Repr

/-- The cache directory and the HTTP session as `_cachePoster` sees them:
the paths at which a file exists, the output streams still open, and the
`GET` requests queued so far, each with the path its chunks are written to.
File contents play no part in `_cachePoster` and are not kept. -/
structure Storage where
  files : List String
  streams : List String
  fetches : List (String × String)
deriving DecidableEq, Repr

/-- The call `file.query_exists(null)`. -/
def query_exists (path : String) (d : Storage) : Bool :=
  decide (path ∈ d.files)

/-- The call `file.replace(null, false, Gio.FileCreateFlags.NONE, null)` on a
path where no file exists, inside an existing directory: the file is created
and an output stream on it is opened. -/
def replace (path : String) (d : Storage) : Storage :=
  { d with files := d.files ++ [path], streams := d.streams ++ [path] }

/-- The call `_httpSession.queue_message(request, ...)` for a `GET` of `url`
whose chunks go to the stream on `path`. -/
def queue_message (url path : String) (d : Storage) : Storage :=
  { d with fetches := d.fetches ++ [(url, path)] }

/-- Completion of the request writing to `path`: the handler closes the
stream. -/
def finishFetch (path : String) (d : Storage) : Storage :=
  { d with streams := d.streams.erase path }

/-- The local path `this._home_path + '/' + CACHE_FOLDER + image_name`. -/
def posterFile (home_path image_name : String) : String :=
  home_path ++ "/" ++ CACHE_FOLDER ++ image_name

/-- Method `_cachePoster`; `url` is `none` when it is not a string. The
result is `none` when the method falls off its end. -/
def _cachePoster (home_path : String) (object : Nat) (image_name : String)
    (url : Option String) (callback : Option Callback) (d : Storage) : Option Icon × Storage :=
  if truthy url && image_name != "" then
    let file := posterFile home_path image_name
    if !query_exists file d then
      let d1 := replace file d
      let d2 := queue_message (url.getD "") file d1
      (some ⟨posterFile home_path image_name, "movie-poster"⟩, d2)
    else
      (some ⟨posterFile home_path image_name, "movie-poster"⟩, d)
  else
    (none, d)

/-! ## Sample data -/

def movieA : Entity :=
  ⟨.num 1, "A", "First film", "2001-05-01", some "/a.jpg"⟩

def movieB : Entity :=
  ⟨.num 2, "B", "Second film", "1999-01-01", none⟩

/-- A provider whose search for `mv alien` waits on timer `5`. -/
def pendingWorld : World :=
  ⟨⟨[(.num 2, movieB)], 5, "en", "en"⟩, [⟨5, ["mv", "alien"], 1⟩], [], [(1, [loadingId])],
    true, true⟩

/-- The search `mv alien`, armed on timer `5` for callback `1`. -/
def callAlien : Call :=
  ⟨false, [], 5, ["mv", "alien"], 1⟩

/-- The refinement `mv aliens`, armed on timer `6` for callback `2`. -/
def callAliens : Call :=
  ⟨true, [loadingId], 6, ["mv", "aliens"], 2⟩

/-- The terms after the query was deleted again: the bare token `mv`. -/
def callBare : Call :=
  ⟨false, [], 7, ["mv"], 3⟩

/-- A provider whose cache holds `movieA` and `movieB`. -/
def cachedProvider : Provider :=
  ⟨[(.num 1, movieA), (.num 2, movieB)], 5, "en", "en"⟩

/-- Names every object inherits from `Object.prototype`. -/
def objectPrototypeNames : List String :=
  ["constructor", "hasOwnProperty", "isPrototypeOf", "propertyIsEnumerable",
   "toLocaleString", "toString", "valueOf", "__proto__"]

/-- An entity whose id is the string `toString`. -/
def movieT : Entity :=
  ⟨.str "toString", "A", "First film", "2001-05-01", none⟩

/-- A provider whose cache holds `movieT` under its id. -/
def shadowedProvider : Provider :=
  ⟨[(.str "toString", movieT)], 5, "en", "en"⟩

/-- A cache directory that holds one poster. -/
def warmStorage : Storage :=
  ⟨["/home/u/.cache/antergos-search-providers-gnome/a.jpg"], [], []⟩

/-- A run: `mv alien` is typed and its timer fires, the response arrives,
then `mv aliens` is typed, followed by the bare `mv`. -/
def sampleRun : List Event :=
  [.search callAlien, .timeout callAlien.timer,
   .response ⟨"alien", "en", 1, 5⟩ none (some ⟨some [movieA]⟩),
   .search callAliens, .search callBare]

/-! ## The entity cache -/

theorem mapGet_mapSet (m : List (Ident × Entity)) (k : Ident) (v : Entity) (k' : Ident) :
    mapGet (mapSet m k v) k' = if k = k' then some v else mapGet m k' := by
  induction m with
  | nil => simp [mapSet, mapGet]
  | cons kv rest ih =>
    obtain ⟨k0, v0⟩ := kv
    by_cases h0 : k0 = k
    · subst h0
      by_cases h1 : k0 = k' <;> simp [mapSet, mapGet, h1]
    · by_cases h1 : k0 = k'
      · subst h1
        have h2 : ¬ k = k0 := fun h => h0 h.symm
        simp [mapSet, mapGet, h0, h2]
      · simp [mapSet, mapGet, h0, h1, ih]

theorem mapGet_storeResults (es : List Entity) (m : List (Ident × Entity)) (k : Ident) :
    mapGet (storeResults m es) k =
      match (es.filter (fun e => decide (e.id = k))).getLast? with
      | some e => some e
      | none => mapGet m k := by
  induction es generalizing m with
  | nil => simp [storeResults]
  | cons e es ih =>
    rw [storeResults, ih, mapGet_mapSet]
    by_cases h : e.id = k
    · simp only [h, decide_True, List.filter_cons_of_pos, if_true]
      cases hl : (es.filter (fun e => decide (e.id = k))).getLast? with
      | none =>
        have : es.filter (fun e => decide (e.id = k)) = [] := List.getLast?_eq_none_iff.mp hl
        simp [this]
      | some x =>
        have hne : es.filter (fun e => decide (e.id = k)) ≠ [] := by
          intro hnil
          simp [hnil] at hl
        obtain ⟨y, ys, hys⟩ := List.exists_cons_of_ne_nil hne
        rw [hys] at hl ⊢
        simp [List.getLast?_cons_cons, hl]
    · simp [h]

/-! ## `_getResultSet` -/

/-- C1 (defect in the code): when the remote call failed (`error` is a message,
`result` is `null`) and the token is current, `_getResultSet` reads
`result.results` on `null` and raises a `TypeError`; the results callback is
not invoked and the error sentinel is not surfaced. -/
theorem C1_failure_with_current_token_throws (msg : String) (callback : Callback) (w : World) :
    _getResultSet (some msg) none callback w.provider.timeoutId w = .error .typeError := by
  simp [_getResultSet, resultGuard]

theorem getResultSet_stale (error : Option String) (result : Option Response)
    (callback : Callback) (timeoutId : Nat) (w : World)
    (hstale : timeoutId ≠ w.provider.timeoutId) :
    _getResultSet error result callback timeoutId w =
      .ok { w with calls := w.calls ++ [(callback, if truthy error then [errorId] else [])] } := by
  simp only [_getResultSet, resultGuard, if_neg hstale]
  by_cases he : truthy error = true <;> simp [he, showMessage, invoke]

/-- C2 as stated fails: a successful response carrying `movieA` with the stale
token `1` (current token `5`) makes `_getResultSet` invoke the callback, with
the empty list; a failed one makes it invoke the callback with the error
sentinel. -/
theorem C2_counterexample :
    (1 : Nat) ≠ pendingWorld.provider.timeoutId ∧
    _getResultSet none (some ⟨some [movieA]⟩) 7 1 pendingWorld =
      .ok { pendingWorld with calls := [(1, [loadingId]), (7, [])] } ∧
    _getResultSet (some "Api.Client.get: Error code: 404") none 7 1 pendingWorld =
      .ok { pendingWorld with calls := [(1, [loadingId]), (7, [errorId])] } := by
  decide

/-- C2 (amended): a response whose token differs from `_timeoutId` never
raises and never touches the provider, the timers or the issued requests;
its entities are dropped, and the callback is invoked exactly once, with the
error sentinel when `error` is truthy and with the empty list otherwise. -/
theorem C2_stale_response_drops_entities (error : Option String) (result : Option Response)
    (callback : Callback) (timeoutId : Nat) (w : World)
    (hstale : timeoutId ≠ w.provider.timeoutId) :
    _getResultSet error result callback timeoutId w =
      .ok { w with calls := w.calls ++ [(callback, if truthy error then [errorId] else [])] } :=
  getResultSet_stale error result callback timeoutId w hstale

/-- C2 at work: a stale successful response on `pendingWorld`. -/
theorem C2_stale_response_drops_entities_witness :
    (1 : Nat) ≠ pendingWorld.provider.timeoutId ∧
    _getResultSet none (some ⟨some [movieA]⟩) 7 1 pendingWorld =
      .ok { pendingWorld with
        calls := pendingWorld.calls ++
          [(7, if truthy none then [errorId] else [])] } :=
  ⟨by decide, C2_stale_response_drops_entities none (some ⟨some [movieA]⟩) 7 1 pendingWorld
    (by decide)⟩

/-- C4: a successful response (`error` is `null`, `result.results` is the list
`es`) with the current token makes `_getResultSet` return normally after
invoking the callback exactly once with the ids of `es` in response order
(the empty list when `es` is empty). Afterwards `resultsMap` maps every id
occurring in `es` to the last entity of `es` with that id and maps every
other key as before; timers, requests and `_timeoutId` are untouched. -/
theorem C4_success_stores_and_reports (es : List Entity) (callback : Callback) (w : World) :
    ∃ w', _getResultSet none (some ⟨some es⟩) callback w.provider.timeoutId w = .ok w' ∧
      w'.calls = w.calls ++ [(callback, es.map Entity.id)] ∧
      (∀ k e, (es.filter (fun x => decide (x.id = k))).getLast? = some e →
        mapGet w'.provider.resultsMap k = some e) ∧
      (∀ k, (∀ e ∈ es, e.id ≠ k) →
        mapGet w'.provider.resultsMap k = mapGet w.provider.resultsMap k) ∧
      w'.provider.timeoutId = w.provider.timeoutId ∧
      w'.timers = w.timers ∧ w'.requests = w.requests := by
  cases es with
  | nil =>
    refine ⟨invoke callback [] w, ?_, ?_, ?_, ?_, ?_, ?_, ?_⟩ <;>
      simp [_getResultSet, resultGuard, truthy, invoke]
  | cons e rest =>
    refine ⟨invoke callback ((e :: rest).map Entity.id)
      { w with provider :=
        { w.provider with resultsMap := storeResults w.provider.resultsMap (e :: rest) } },
      ?_, ?_, ?_, ?_, ?_, ?_, ?_⟩
    · simp [_getResultSet, resultGuard]
    · simp [invoke]
    · intro k x hx
      simp only [invoke]
      rw [mapGet_storeResults, hx]
    · intro k hk
      simp only [invoke]
      rw [mapGet_storeResults]
      have hnil : (e :: rest).filter (fun x => decide (x.id = k)) = [] := by
        rw [List.filter_eq_nil_iff]
        intro x hx
        simpa using hk x hx
      simp [hnil]
    · simp [invoke]
    · simp [invoke]
    · simp [invoke]

/-! ## The trigger test -/

theorem take_two_eq_iff (l : List Char) : l.take 2 = ['m', 'v'] ↔ ['m', 'v'] <+: l := by
  rw [List.prefix_iff_eq_take]
  constructor
  · intro h
    simpa using h.symm
  · intro h
    simpa using h.symm

theorem triggered_cons_cons (t0 t1 : String) (rest : List String) :
    triggered (t0 :: t1 :: rest) = true ↔ "mv".data <+: t0.data := by
  have hmv : "mv".data = ['m', 'v'] := rfl
  rw [hmv, ← take_two_eq_iff]
  simp [triggered, substr, String.ext_iff]

theorem triggered_iff (terms : List String) :
    triggered terms = true ↔
      ∃ t0 t1 rest, terms = t0 :: t1 :: rest ∧ "mv".data <+: t0.data := by
  match terms with
  | [] => simp [triggered]
  | [t] => simp [triggered]
  | t0 :: t1 :: rest =>
    rw [triggered_cons_cons]
    simp

theorem not_triggered_of_no_lead (terms : List String)
    (h : ∀ t rest, terms = t :: rest → ¬ ("mv".data <+: t.data)) : triggered terms = false := by
  cases ht : triggered terms with
  | false => rfl
  | true =>
    obtain ⟨t0, t1, rest, hterms, hpre⟩ := (triggered_iff terms).mp ht
    exact absurd hpre (h t0 (t1 :: rest) hterms)

/-! ## `_getQuery` -/

theorem intercalate_go_eq (sep : String) (l : List String) (acc : String) :
    String.intercalate.go acc sep l = acc ++ l.foldr (fun y r => sep ++ y ++ r) "" := by
  induction l generalizing acc with
  | nil => simp [String.intercalate.go]
  | cons a l ih =>
    rw [String.intercalate.go, ih]
    simp [String.append_assoc]

theorem join_cons_eq (sep : String) (x : String) (l : List String) :
    join sep (x :: l) = x ++ l.foldr (fun y r => sep ++ y ++ r) "" := by
  induction l generalizing x with
  | nil => simp [join]
  | cons y l ih =>
    rw [join, ih]
    simp [String.append_assoc]

theorem join_eq_intercalate (sep : String) (l : List String) :
    join sep l = sep.intercalate l := by
  cases l with
  | nil => rfl
  | cons x l => rw [join_cons_eq, String.intercalate, intercalate_go_eq]

/-! ## The search entry points -/

theorem getSubsetResultSearch_eq (newId : Nat) (previousResults : List Ident)
    (terms : List String) (callback : Callback) (w : World) :
    getSubsetResultSearch newId previousResults terms callback w =
      getInitialResultSet newId terms callback w := rfl

theorem search_untriggered (newId : Nat) (terms : List String) (callback : Callback)
    (w : World) (h : triggered terms = false) :
    getInitialResultSet newId terms callback w =
      .ok { w with calls := w.calls ++ [(callback, [])] } := by
  simp only [getInitialResultSet, h, _getResultSet, resultGuard]
  by_cases h0 : 0 = w.provider.timeoutId <;> simp [h0, truthy, invoke]

theorem search_triggered (newId : Nat) (terms : List String) (callback : Callback)
    (w : World) (h : triggered terms = true) :
    getInitialResultSet newId terms callback w =
      .ok { w with
        provider := { w.provider with timeoutId := newId }
        timers :=
          (if 0 < w.provider.timeoutId then
            w.timers.filter (fun t => t.id != w.provider.timeoutId)
          else w.timers) ++ [⟨newId, terms, callback⟩]
        calls := w.calls ++ [(callback, [loadingId])] } := by
  simp only [getInitialResultSet, h, if_true, showMessage, invoke, timeout_add, source_remove]
  by_cases h0 : 0 < w.provider.timeoutId <;> simp [h0]

/-- C6 as stated fails: the one-token sequence `mv` is non-empty and its first
token begins with the prefix, yet `getInitialResultSet` reports the empty
list instead of the loading sentinel, leaves the pending timer `5` armed and
arms no new timer. -/
theorem C6_counterexample :
    "mv".data <+: "mv".data ∧
    getInitialResultSet 9 ["mv"] 7 pendingWorld =
      .ok { pendingWorld with calls := [(1, [loadingId]), (7, [])] } ∧
    pendingWorld.timers = [⟨5, ["mv", "alien"], 1⟩] := by
  decide

/-- C6 (amended): for every terms sequence of at least two tokens whose first
token begins with `mv`, `getInitialResultSet` invokes the callback with the
one-element loading-sentinel list, removes the timer whose id is the previous
positive `_timeoutId` (so nothing stays armed when every armed timer carries
that id), arms one new timer and stores its id in `_timeoutId`; when that
timer fires it issues one `Api.searchEntities` call whose query is the tokens
after the first joined by single spaces, which is what `_getQuery` computes. -/
theorem C6_triggered_search_arms_timer (newId : Nat) (t0 t1 : String) (rest : List String)
    (callback : Callback) (w : World) (hlead : "mv".data <+: t0.data) :
    ∃ w', getInitialResultSet newId (t0 :: t1 :: rest) callback w = .ok w' ∧
      w'.calls = w.calls ++ [(callback, [loadingId])] ∧
      w'.timers =
        (if 0 < w.provider.timeoutId then
          w.timers.filter (fun t => t.id != w.provider.timeoutId)
        else w.timers) ++ [⟨newId, t0 :: t1 :: rest, callback⟩] ∧
      ((∀ t ∈ w.timers, t.id = w.provider.timeoutId ∧ 0 < t.id) →
        w'.timers = [⟨newId, t0 :: t1 :: rest, callback⟩]) ∧
      w'.provider.timeoutId = newId ∧
      w'.provider.resultsMap = w.provider.resultsMap ∧
      w'.requests = w.requests ∧
      (fire ⟨newId, t0 :: t1 :: rest, callback⟩ w').requests =
        w.requests ++
          [⟨" ".intercalate (t1 :: rest), searchLanguage w.provider, callback, newId⟩] ∧
      _getQuery (t0 :: t1 :: rest) = " ".intercalate (t1 :: rest) := by
  have htrig : triggered (t0 :: t1 :: rest) = true := (triggered_cons_cons t0 t1 rest).mpr hlead
  have hq : _getQuery (t0 :: t1 :: rest) = " ".intercalate (t1 :: rest) := by
    simp [_getQuery, join_eq_intercalate]
  refine ⟨_, search_triggered newId _ callback w htrig, rfl, rfl, ?_, rfl, rfl, rfl, ?_, hq⟩
  · intro hinv
    by_cases h0 : 0 < w.provider.timeoutId
    · have hnil : w.timers.filter (fun t => t.id != w.provider.timeoutId) = [] := by
        rw [List.filter_eq_nil_iff]
        intro t ht
        simp [(hinv t ht).1]
      simp [h0, hnil]
    · have hnil : w.timers = [] := by
        cases hw : w.timers with
        | nil => rfl
        | cons t ts =>
          have := hinv t (by simp [hw])
          omega
      simp [h0, hnil]
  · simp [fire, timerAction, Api.searchEntities, hq, searchLanguage]

/-- C6 at work: a second search `mv alien 3` on `pendingWorld` replaces
timer `5` by timer `6`. -/
theorem C6_triggered_search_arms_timer_witness :
    "mv".data <+: "mv".data ∧
    ∃ w', getInitialResultSet 6 ["mv", "alien", "3"] 2 pendingWorld = .ok w' ∧
      w'.calls = [(1, [loadingId]), (2, [loadingId])] ∧
      w'.timers = [⟨6, ["mv", "alien", "3"], 2⟩] ∧
      (fire ⟨6, ["mv", "alien", "3"], 2⟩ w').requests = [⟨"alien 3", "en", 2, 6⟩] := by
  refine ⟨by decide, ?_⟩
  obtain ⟨w', h1, h2, _, h4, _, _, _, h8, _⟩ :=
    C6_triggered_search_arms_timer 6 "mv" "alien" ["3"] 2 pendingWorld (by decide)
  refine ⟨w', h1, h2, h4 (by decide), ?_⟩
  rw [h8]
  decide

/-- C7: when the first token does not begin with `mv` (or there is no token
at all), `getInitialResultSet` returns normally having invoked the callback
exactly once, with the empty list, and changes nothing else: no timer is
armed or removed, no remote call is issued, and `resultsMap` and `_timeoutId`
stay as they were, whatever the provider state. -/
theorem C7_untriggered_search_reports_empty (newId : Nat) (terms : List String)
    (callback : Callback) (w : World)
    (hlead : ∀ t rest, terms = t :: rest → ¬ ("mv".data <+: t.data)) :
    getInitialResultSet newId terms callback w =
      .ok { w with calls := w.calls ++ [(callback, [])] } :=
  search_untriggered newId terms callback w (not_triggered_of_no_lead terms hlead)

/-- C7 at work: the terms `wd alien` on `pendingWorld`. -/
theorem C7_untriggered_search_reports_empty_witness :
    (∀ t rest, ["wd", "alien"] = t :: rest → ¬ ("mv".data <+: t.data)) ∧
    getInitialResultSet 6 ["wd", "alien"] 2 pendingWorld =
      .ok { pendingWorld with calls := pendingWorld.calls ++ [(2, [])] } :=
  ⟨by intro t rest h; cases h; decide,
   C7_untriggered_search_reports_empty 6 ["wd", "alien"] 2 pendingWorld
    (by intro t rest h; cases h; decide)⟩

/-! ## Runs -/

theorem Call.exec_eq (c : Call) (w : World) :
    c.exec w = getInitialResultSet c.newId c.terms c.callback w := by
  unfold Call.exec
  split <;> rfl

theorem step_search_triggered (c : Call) (w : World) (h : triggered c.terms = true) :
    step w (.search c) =
      { w with
        provider := { w.provider with timeoutId := c.newId }
        timers :=
          (if 0 < w.provider.timeoutId then
            w.timers.filter (fun t => t.id != w.provider.timeoutId)
          else w.timers) ++ [c.timer]
        calls := w.calls ++ [(c.callback, [loadingId])] } := by
  simp only [step, Call.exec_eq, search_triggered _ _ _ _ h, settle, Call.timer]

theorem step_search_untriggered (c : Call) (w : World) (h : triggered c.terms = false) :
    step w (.search c) = { w with calls := w.calls ++ [(c.callback, [])] } := by
  simp only [step, Call.exec_eq, search_untriggered _ _ _ _ h, settle]

theorem filter_pending_eq_nil (w : World)
    (hinv : ∀ t ∈ w.timers, t.id = w.provider.timeoutId ∧ 0 < t.id) :
    (if 0 < w.provider.timeoutId then
      w.timers.filter (fun t => t.id != w.provider.timeoutId)
    else w.timers) = [] := by
  by_cases h0 : 0 < w.provider.timeoutId
  · rw [if_pos h0, List.filter_eq_nil_iff]
    intro t ht
    simp [(hinv t ht).1]
  · rw [if_neg h0]
    cases hw : w.timers with
    | nil => rfl
    | cons t ts =>
      have := hinv t (by simp [hw])
      omega

theorem lastTriggered_append_singleton (cs : List Call) (c : Call) :
    lastTriggered (cs ++ [c]) = if triggered c.terms then some c else lastTriggered cs := by
  unfold lastTriggered
  by_cases h : triggered c.terms = true
  · simp [List.filter_append, h]
  · simp [List.filter_append, h]

/-- State reached by a burst of search calls: the armed timers are those of
the state before if no call was triggered, and otherwise exactly the timer
of the last triggered call, whose id is then `_timeoutId`. -/
theorem runCalls_timers (cs : List Call) (w : World)
    (hinv : ∀ t ∈ w.timers, t.id = w.provider.timeoutId ∧ 0 < t.id)
    (hpos : ∀ c ∈ cs, 0 < c.newId) :
    (runCalls w cs).requests = w.requests ∧
    (runCalls w cs).provider.language = w.provider.language ∧
    (runCalls w cs).provider.resultsMap = w.provider.resultsMap ∧
    match lastTriggered cs with
    | some c => (runCalls w cs).timers = [c.timer] ∧ (runCalls w cs).provider.timeoutId = c.newId
    | none => (runCalls w cs).timers = w.timers ∧
        (runCalls w cs).provider.timeoutId = w.provider.timeoutId := by
  induction cs using List.reverseRecOn with
  | nil => simp [runCalls, run, lastTriggered]
  | append_singleton cs c ih =>
    have hpos' : ∀ c' ∈ cs, 0 < c'.newId := fun c' hc' => hpos c' (by simp [hc'])
    have hc : 0 < c.newId := hpos c (by simp)
    obtain ⟨hreq, hlang, hmap, hlast⟩ := ih hpos'
    have hrun : runCalls w (cs ++ [c]) = step (runCalls w cs) (.search c) := by
      simp [runCalls, run, List.foldl_append]
    have hinv' : ∀ t ∈ (runCalls w cs).timers,
        t.id = (runCalls w cs).provider.timeoutId ∧ 0 < t.id := by
      cases hl : lastTriggered cs with
      | none =>
        rw [hl] at hlast
        intro t ht
        rw [hlast.1] at ht
        rw [hlast.2]
        exact hinv t ht
      | some c' =>
        rw [hl] at hlast
        intro t ht
        rw [hlast.1] at ht
        have htc : t = c'.timer := by simpa using ht
        have hc' : c' ∈ cs := by
          have : c' ∈ cs.filter (fun c => triggered c.terms) :=
            List.mem_of_getLast?_eq_some hl
          exact (List.mem_filter.mp this).1
        subst htc
        rw [hlast.2]
        exact ⟨rfl, hpos' c' hc'⟩
    rw [hrun, lastTriggered_append_singleton]
    by_cases ht : triggered c.terms = true
    · rw [step_search_triggered c _ ht, if_pos ht, filter_pending_eq_nil _ hinv']
      simp [hreq, hlang, hmap]
    · have ht' : triggered c.terms = false := by simpa using ht
      rw [step_search_untriggered c _ ht', if_neg ht]
      refine ⟨hreq, hlang, hmap, ?_⟩
      cases hl : lastTriggered cs with
      | none =>
        rw [hl] at hlast
        exact hlast
      | some c' =>
        rw [hl] at hlast
        exact hlast

theorem fire_requests (t : Timer) (w : World) :
    (fire t w).requests =
      w.requests ++
        [⟨_getQuery t.terms, searchLanguage w.provider, t.callback, w.provider.timeoutId⟩] := by
  simp [fire, timerAction, Api.searchEntities]

/-- C3 as stated fails: the search `mv alien` is followed, before its timer
fires, by a call with the bare token `mv`. The last call sends nothing, and
the earlier call's query `alien` is sent once timers fire. -/
theorem C3_counterexample :
    [callAlien, callBare].getLast? = some callBare ∧
    (fireAll (runCalls (initWorld "en") [callAlien, callBare])).requests =
      [⟨"alien", "en", callAlien.callback, callAlien.newId⟩] ∧
    callAlien.callback ≠ callBare.callback := by
  decide

/-- C3 (amended): take any burst of search calls (either entry point, any
terms) on a provider with no timer armed, the main loop handing out positive
timer ids and no timer firing during the burst. Once the timers fire, the
remote search calls issued are exactly one call for the last triggered call
of the burst (at least two tokens, the first beginning with `mv`), carrying
its query and bound to its callback and timer id, and none at all if no call
was triggered; every other call of the burst produces no remote call, and no
timer stays armed. -/
theorem C3_burst_sends_last_triggered (cs : List Call) (w : World)
    (hidle : w.timers = []) (hpos : ∀ c ∈ cs, 0 < c.newId) :
    (fireAll (runCalls w cs)).requests =
      w.requests ++ (lastTriggered cs).toList.map (fun c => c.request w.provider) ∧
    (fireAll (runCalls w cs)).timers = [] := by
  have hinv : ∀ t ∈ w.timers, t.id = w.provider.timeoutId ∧ 0 < t.id := by
    simp [hidle]
  obtain ⟨hreq, hlang, _, hlast⟩ := runCalls_timers cs w hinv hpos
  cases hl : lastTriggered cs with
  | none =>
    rw [hl] at hlast
    have ht : (runCalls w cs).timers = [] := by rw [hlast.1, hidle]
    simp [fireAll, ht, run, hreq]
  | some c =>
    rw [hl] at hlast
    have hfire : fireAll (runCalls w cs) = fire c.timer (runCalls w cs) := by
      simp [fireAll, hlast.1, run, step]
    rw [hfire]
    constructor
    · rw [fire_requests, hreq, hlast.2]
      simp [Call.request, Call.timer, searchLanguage, hlang]
    · simp [fire, timerAction, Api.searchEntities, hlast.1]

/-- C3 at work: `mv alien`, then `mv aliens`, then the bare `mv`. -/
theorem C3_burst_sends_last_triggered_witness :
    (initWorld "en").timers = [] ∧
    (∀ c ∈ [callAlien, callAliens, callBare], 0 < c.newId) ∧
    (fireAll (runCalls (initWorld "en") [callAlien, callAliens, callBare])).requests =
      [⟨"aliens", "en", 2, 6⟩] := by
  refine ⟨rfl, by decide, ?_⟩
  rw [(C3_burst_sends_last_triggered [callAlien, callAliens, callBare] (initWorld "en") rfl
    (by decide)).1]
  decide

/-! ## Overlapping searches -/

theorem getResultSet_frame (error : Option String) (result : Option Response)
    (callback : Callback) (timeoutId : Nat) (w w' : World)
    (h : _getResultSet error result callback timeoutId w = .ok w') :
    w'.provider.timeoutId = w.provider.timeoutId ∧ w'.requests = w.requests := by
  unfold _getResultSet at h
  split at h
  · exact absurd h (by simp)
  · injection h with h
    subst h
    simp [invoke]
  · split at h <;>
    · injection h with h
      subst h
      simp [invoke, showMessage]

theorem step_quiet (w : World) (ev : Event) (hq : ev.isSearch = false) :
    (step w ev).provider.timeoutId = w.provider.timeoutId ∧
    ∀ r ∈ w.requests, r ∈ (step w ev).requests := by
  cases ev with
  | search c => simp [Event.isSearch] at hq
  | timeout t =>
    simp only [step]
    split
    · simp [fire, timerAction, Api.searchEntities]
      intro r hr
      exact Or.inl hr
    · simp
  | response r error result =>
    simp only [step]
    split
    · cases hres : _getResultSet error result r.callback r.timeoutId w with
      | error e => simp [settle]
      | ok w' =>
        obtain ⟨h1, h2⟩ := getResultSet_frame _ _ _ _ _ _ hres
        simp [settle, h1, h2]
    · simp

theorem run_quiet (evs : List Event) (w : World) (hq : ∀ ev ∈ evs, ev.isSearch = false) :
    (run w evs).provider.timeoutId = w.provider.timeoutId ∧
    ∀ r ∈ w.requests, r ∈ (run w evs).requests := by
  induction evs generalizing w with
  | nil => simp [run]
  | cons ev evs ih =>
    have h1 := step_quiet w ev (hq ev (by simp))
    have h2 := ih (step w ev) (fun e he => hq e (by simp [he]))
    have hrun : run w (ev :: evs) = run (step w ev) evs := rfl
    rw [hrun]
    exact ⟨h2.1.trans h1.1, fun r hr => h2.2 r (h1.2 r hr)⟩

/-- C5: let search A be triggered and its timer fire, so that its remote call
is in flight, and let a triggered search B be issued afterwards on a timer id
different from A's. Then, after any further timer firings and response
arrivals, A's request is still outstanding with A's timer id as token, and
whatever `error` and `result` its response carries, `_getResultSet` returns
normally and leaves `resultsMap` exactly as it was before the response. -/
theorem C5_overtaken_response_keeps_cache (w : World) (a b : Call) (evs : List Event)
    (error : Option String) (result : Option Response)
    (ha : triggered a.terms = true) (hb : triggered b.terms = true)
    (hne : b.newId ≠ a.newId) (hquiet : ∀ ev ∈ evs, ev.isSearch = false) :
    let wB := step (step (step w (.search a)) (.timeout a.timer)) (.search b)
    let wC := run wB evs
    let rA : Request := ⟨_getQuery a.terms, searchLanguage w.provider, a.callback, a.newId⟩
    rA ∈ wC.requests ∧
    (∃ w', _getResultSet error result rA.callback rA.timeoutId wC = .ok w' ∧
      w'.provider.resultsMap = wC.provider.resultsMap) ∧
    (step wC (.response rA error result)).provider.resultsMap = wC.provider.resultsMap := by
  intro wB wC rA
  have hA : step w (.search a) = _ := step_search_triggered a w ha
  have hmemA : a.timer ∈ (step w (.search a)).timers := by
    rw [hA]
    simp
  have hF : step (step w (.search a)) (.timeout a.timer) = fire a.timer (step w (.search a)) := by
    show (if a.timer ∈ (step w (.search a)).timers then fire a.timer (step w (.search a))
      else step w (.search a)) = _
    rw [if_pos hmemA]
  have hreqF : rA ∈ (step (step w (.search a)) (.timeout a.timer)).requests := by
    rw [hF, fire_requests, hA]
    simp [rA, Call.timer, searchLanguage]
  have hB : wB = _ := step_search_triggered b _ hb
  have hreqB : rA ∈ wB.requests := by
    rw [hB]
    exact hreqF
  have htokB : wB.provider.timeoutId = b.newId := by
    rw [hB]
  obtain ⟨htokC, hreqC⟩ := run_quiet evs wB hquiet
  have hstale : rA.timeoutId ≠ wC.provider.timeoutId := by
    show a.newId ≠ (run wB evs).provider.timeoutId
    rw [htokC, htokB]
    exact fun h => hne h.symm
  have hres := getResultSet_stale error result rA.callback rA.timeoutId wC hstale
  refine ⟨hreqC rA hreqB, ⟨_, hres, rfl⟩, ?_⟩
  simp only [step, if_pos (hreqC rA hreqB), hres, settle]

/-- C5 at work: `mv alien` is in flight when `mv aliens` is issued; the second
search completes and stores `movieB`, then the first response arrives with
`movieA` and the cache still holds `movieB` only. -/
theorem C5_overtaken_response_keeps_cache_witness :
    triggered callAlien.terms = true ∧ triggered callAliens.terms = true ∧
    callAliens.newId ≠ callAlien.newId ∧
    (step
      (run
        (step (step (step (initWorld "en") (.search callAlien)) (.timeout callAlien.timer))
          (.search callAliens))
        [.timeout callAliens.timer, .response ⟨"aliens", "en", 2, 6⟩ none (some ⟨some [movieB]⟩)])
      (.response ⟨"alien", "en", 1, 5⟩ none (some ⟨some [movieA]⟩))).provider.resultsMap =
      [(.num 2, movieB)] := by
  refine ⟨by decide, by decide, by decide, ?_⟩
  have h := (C5_overtaken_response_keeps_cache (initWorld "en") callAlien callAliens
    [.timeout callAliens.timer, .response ⟨"aliens", "en", 2, 6⟩ none (some ⟨some [movieB]⟩)]
    none (some ⟨some [movieA]⟩) (by decide) (by decide) (by decide) (by decide)).2.2
  exact h.trans (by decide)

/-! ## `_getResultMeta` -/

theorem splitChars_head (sep : Char) (cs : List Char) :
    ∃ ps, splitChars sep cs = cs.takeWhile (fun c => c != sep) :: ps := by
  induction cs with
  | nil => exact ⟨[], rfl⟩
  | cons c cs ih =>
    obtain ⟨ps, hps⟩ := ih
    by_cases hc : c = sep
    · exact ⟨splitChars sep cs, by simp [splitChars, hc]⟩
    · exact ⟨ps, by simp [splitChars, hc, hps]⟩

theorem split_head (s : String) (d : String) :
    (split s '-').headD d = beforeFirstDash s := by
  obtain ⟨ps, hps⟩ := splitChars_head '-' s.data
  simp [split, hps, beforeFirstDash]

theorem split_head_getD (s : String) (d : String) :
    (split s '-').head?.getD d = beforeFirstDash s := by
  obtain ⟨ps, hps⟩ := splitChars_head '-' s.data
  simp [split, hps, beforeFirstDash]

/-- The entity branch of `_getResultMeta`: for an identifier that fails the
test `identifier in this._messages` and that `resultsMap` maps to `e`, the
result is a descriptor with the id and overview of `e`, named `e.title`
followed by ` (`, the part of `e.release_date` before its first `-`, and
`)`. -/
theorem getResultMeta_of_cached_entity (gettext : String → String) (inherited : List String)
    (identifier : Ident) (p : Provider) (e : Entity)
    (hin : inMessages inherited identifier = false)
    (hget : mapGet p.resultsMap identifier = some e) :
    ∃ r, _getResultMeta gettext inherited identifier p = .ok (.descriptor r) ∧
      r.id = e.id ∧ r.description = e.overview ∧
      r.name = e.title ++ " (" ++ beforeFirstDash e.release_date ++ ")" := by
  simp [_getResultMeta, hin, hget, split_head_getD]

/-- The entity branch at work: title `A` released `2001-05-01` is named
`A (2001)`. -/
theorem getResultMeta_of_cached_entity_example :
    ∃ r, _getResultMeta id objectPrototypeNames (.num 1) cachedProvider = .ok (.descriptor r) ∧
      r.id = .num 1 ∧ r.description = "First film" ∧ r.name = "A (2001)" := by
  obtain ⟨r, h1, h2, h3, h4⟩ :=
    getResultMeta_of_cached_entity id objectPrototypeNames (.num 1) cachedProvider movieA
      (by decide) (by decide)
  exact ⟨r, h1, h2, h3, h4.trans (by decide)⟩

/-- C8 (defect in the code): an identifier that is not a sentinel but is a
name `this._messages` inherits from `Object.prototype` passes the test
`identifier in this._messages`, so `_getResultMeta` returns the inherited
value and never reads `resultsMap`: no descriptor with the entity's id,
overview and `title (year)` name is returned, whatever the cache holds under
that identifier. -/
theorem C8_inherited_name_shadows_entity (gettext : String → String) (inherited : List String)
    (name : String) (p : Provider)
    (hname : name ∈ inherited) (hns : Ident.str name ≠ loadingId ∧ Ident.str name ≠ errorId) :
    _getResultMeta gettext inherited (.str name) p = .ok (.inherited name) := by
  have h1 : name ≠ "__loading__" := fun h => hns.1 (by rw [h]; rfl)
  have h2 : name ≠ "__error__" := fun h => hns.2 (by rw [h]; rfl)
  simp [_getResultMeta, inMessages, propertyKey, messages, hname, h1, h2]

/-- C8 at work: `resultsMap` maps the non-sentinel identifier `toString` to
`movieT`, and `_getResultMeta` returns what `Object.prototype` holds under
`toString` instead of the descriptor named `A (2001)`. -/
theorem C8_inherited_name_shadows_entity_witness :
    "toString" ∈ objectPrototypeNames ∧
    (Ident.str "toString" ≠ loadingId ∧ Ident.str "toString" ≠ errorId) ∧
    mapGet shadowedProvider.resultsMap (.str "toString") = some movieT ∧
    _getResultMeta id objectPrototypeNames (.str "toString") shadowedProvider =
      .ok (.inherited "toString") :=
  ⟨by decide, by decide, by decide,
   C8_inherited_name_shadows_entity id objectPrototypeNames "toString" shadowedProvider
    (by decide) (by decide)⟩

/-! ## `filterResults` -/

/-- C9 as stated fails: with five ids and `max = 2` the claim promises the
first two ids, while `filterResults` returns all five. -/
theorem C9_counterexample :
    filterResults [1, 2, 3, 4, 5] 2 = [1, 2, 3, 4, 5] ∧
    List.take (min 2 (min (toInteger Api.limit) [1, 2, 3, 4, 5].length)) [1, 2, 3, 4, 5] =
      [1, 2] := by
  decide

/-- C9 (amended): for every list `ids` and every `max`, `filterResults`
returns the first `min(configuredLimit, len(ids))` elements of `ids` in
their original order, where `configuredLimit` is the `Api` limit, `10`; the
argument `max` has no influence. -/
theorem C9_filterResults_ignores_max {α : Type} (ids : List α) (max : Nat) :
    filterResults ids max = ids.take (min (toInteger Api.limit) ids.length) ∧
    toInteger Api.limit = 10 := by
  have hlimit : toInteger Api.limit = 10 := by decide
  refine ⟨?_, hlimit⟩
  simp only [filterResults, slice0]
  rw [List.take_eq_take]
  simp

/-! ## `disable` -/

theorem getResultSet_success_calls (es : List Entity) (callback : Callback) (w : World) :
    ∃ w', _getResultSet none (some ⟨some es⟩) callback w.provider.timeoutId w = .ok w' ∧
      w'.calls = w.calls ++ [(callback, es.map Entity.id)] := by
  cases es with
  | nil =>
    exact ⟨invoke callback [] w, by simp [_getResultSet, resultGuard, truthy],
      by simp [invoke]⟩
  | cons e rest =>
    exact ⟨invoke callback ((e :: rest).map Entity.id)
      { w with provider :=
        { w.provider with resultsMap := storeResults w.provider.resultsMap (e :: rest) } },
      by simp [_getResultSet, resultGuard], by simp [invoke]⟩

theorem fire_frame (t : Timer) (w : World) :
    (fire t w).provider.timeoutId = w.provider.timeoutId ∧ (fire t w).calls = w.calls := by
  simp [fire, timerAction, Api.searchEntities]

/-- C10 as stated fails: `disable()` on `pendingWorld` leaves timer `5` armed;
the timer then fires, `Api.searchEntities` is called with `alien`, and the
successful response carrying `movieA` is reported to the results callback. -/
theorem C10_counterexample :
    (disable pendingWorld).theMovieDBSearchProvider = false ∧
    (disable pendingWorld).timers = [⟨5, ["mv", "alien"], 1⟩] ∧
    (fireAll (disable pendingWorld)).requests = [⟨"alien", "en", 1, 5⟩] ∧
    (step (fireAll (disable pendingWorld))
      (.response ⟨"alien", "en", 1, 5⟩ none (some ⟨some [movieA]⟩))).calls =
      [(1, [loadingId]), (1, [.num 1])] := by
  decide

/-- C10 (amended): `disable()` unregisters the provider and clears the module
reference, and nothing else: the provider object, the armed timers, the
issued requests and the callback log are as before. Every timer armed before
`disable()` is therefore still armed after it; when it fires after
`disable()` its action still calls `Api.searchEntities` with the query of its
terms, and a successful response to that call (`error` is `null`) arriving
next still invokes the timer's results callback once, with the ids of the
response. -/
theorem C10_disable_keeps_timers (w : World) :
    (disable w).theMovieDBSearchProvider = false ∧
    (w.theMovieDBSearchProvider = true → (disable w).registered = false) ∧
    (disable w).provider = w.provider ∧
    (disable w).timers = w.timers ∧
    (disable w).requests = w.requests ∧
    (disable w).calls = w.calls ∧
    ∀ t ∈ w.timers,
      (step (disable w) (.timeout t)).requests =
        w.requests ++
          [⟨_getQuery t.terms, searchLanguage w.provider, t.callback, w.provider.timeoutId⟩] ∧
      ∀ es : List Entity,
        (step (step (disable w) (.timeout t))
          (.response
            ⟨_getQuery t.terms, searchLanguage w.provider, t.callback, w.provider.timeoutId⟩
            none (some ⟨some es⟩))).calls =
          w.calls ++ [(t.callback, es.map Entity.id)] := by
  have hframe : (disable w).provider = w.provider ∧ (disable w).timers = w.timers ∧
      (disable w).requests = w.requests ∧ (disable w).calls = w.calls := by
    unfold disable
    split <;> simp
  obtain ⟨hp, ht, hr, hc⟩ := hframe
  refine ⟨?_, ?_, hp, ht, hr, hc, ?_⟩
  · unfold disable
    split
    · rfl
    · simpa using ‹¬ w.theMovieDBSearchProvider = true›
  · intro h
    simp [disable, h]
  · intro t hmem
    have hmem' : t ∈ (disable w).timers := by rw [ht]; exact hmem
    have hstep : step (disable w) (.timeout t) = fire t (disable w) := by
      show (if t ∈ (disable w).timers then fire t (disable w) else disable w) = _
      rw [if_pos hmem']
    have hreq : (fire t (disable w)).requests =
        w.requests ++
          [⟨_getQuery t.terms, searchLanguage w.provider, t.callback,
            w.provider.timeoutId⟩] := by
      rw [fire_requests, hr, hp]
    obtain ⟨htok, hcalls⟩ := fire_frame t (disable w)
    rw [hp] at htok
    rw [hc] at hcalls
    rw [hstep]
    refine ⟨hreq, ?_⟩
    intro es
    obtain ⟨w', hok, hw'⟩ := getResultSet_success_calls es t.callback (fire t (disable w))
    rw [htok] at hok
    have hin : (⟨_getQuery t.terms, searchLanguage w.provider, t.callback,
        w.provider.timeoutId⟩ : Request) ∈ (fire t (disable w)).requests := by
      rw [hreq]
      simp
    simp only [step, if_pos hin, hok, settle]
    rw [hw', hcalls]

/-! ## `_cachePoster` -/

theorem cachePoster_hit (home_path image_name url : String) (object : Nat)
    (callback : Option Callback) (d : Storage) (hname : image_name ≠ "") (hurl : url ≠ "")
    (hfile : posterFile home_path image_name ∈ d.files) :
    _cachePoster home_path object image_name (some url) callback d =
      (some ⟨posterFile home_path image_name, "movie-poster"⟩, d) := by
  simp [_cachePoster, truthy, hname, hurl, query_exists, hfile]

theorem cachePoster_miss (home_path image_name url : String) (object : Nat)
    (callback : Option Callback) (d : Storage) (hname : image_name ≠ "") (hurl : url ≠ "")
    (hfile : posterFile home_path image_name ∉ d.files) :
    _cachePoster home_path object image_name (some url) callback d =
      (some ⟨posterFile home_path image_name, "movie-poster"⟩,
        { files := d.files ++ [posterFile home_path image_name]
          streams := d.streams ++ [posterFile home_path image_name]
          fetches := d.fetches ++ [(url, posterFile home_path image_name)] }) := by
  simp [_cachePoster, truthy, hname, hurl, query_exists, hfile, replace, queue_message]

/-- C11: over the cache directory (the paths at which a file exists) and the
log of queued image requests, for every non-empty poster path and non-empty
URL: (1) if no file exists at the local path `home + '/' + cache folder +
poster path`, the first `_cachePoster` call queues one request for the URL,
and a second call for the same path after the first fetch completed queues
none, so exactly one fetch is issued in total; (2) if a file already exists
at that path, `_cachePoster` queues nothing and changes nothing; (3) both
calls return an icon for that path. -/
theorem C11_cachePoster_fetches_once (home_path image_name url : String) (object : Nat)
    (callback : Option Callback) (d : Storage) (hname : image_name ≠ "") (hurl : url ≠ "") :
    let file := posterFile home_path image_name
    let first := _cachePoster home_path object image_name (some url) callback d
    let second :=
      _cachePoster home_path object image_name (some url) callback (finishFetch file first.2)
    (file ∉ d.files →
      first.2.fetches = d.fetches ++ [(url, file)] ∧
      second.2.fetches = d.fetches ++ [(url, file)]) ∧
    (file ∈ d.files → first.2 = d ∧ second.2.fetches = d.fetches) ∧
    first.1 = some ⟨file, "movie-poster"⟩ ∧
    second.1 = some ⟨file, "movie-poster"⟩ := by
  intro file first second
  by_cases hfile : file ∈ d.files
  · have h1 : first = (some ⟨file, "movie-poster"⟩, d) :=
      cachePoster_hit home_path image_name url object callback d hname hurl hfile
    have hfile' : file ∈ (finishFetch file first.2).files := by
      rw [h1]
      exact hfile
    have h2 : second = (some ⟨file, "movie-poster"⟩, finishFetch file first.2) :=
      cachePoster_hit home_path image_name url object callback _ hname hurl hfile'
    refine ⟨fun h => absurd hfile h, fun _ => ⟨?_, ?_⟩, ?_, ?_⟩
    · rw [h1]
    · rw [h2, h1]
      rfl
    · rw [h1]
    · rw [h2]
  · have h1 := cachePoster_miss home_path image_name url object callback d hname hurl hfile
    have h1' : first = _ := h1
    have hfile' : file ∈ (finishFetch file first.2).files := by
      rw [h1']
      simp [finishFetch]
    have h2 : second = (some ⟨file, "movie-poster"⟩, finishFetch file first.2) :=
      cachePoster_hit home_path image_name url object callback _ hname hurl hfile'
    refine ⟨fun _ => ⟨?_, ?_⟩, fun h => absurd h hfile, ?_, ?_⟩
    · rw [h1']
    · rw [h2, h1']
      rfl
    · rw [h1']
    · rw [h2]

/-- C11 at work: the poster `/b.jpg` is fetched once into a cache that holds
`/a.jpg`, and `/a.jpg` itself is served without a request. -/
theorem C11_cachePoster_fetches_once_witness :
    ("/b.jpg" ≠ "" ∧ "http://image.tmdb.org/t/p//w185//b.jpg" ≠ "") ∧
    (_cachePoster "/home/u" 64 "/b.jpg" (some "http://image.tmdb.org/t/p//w185//b.jpg") none
      (finishFetch (posterFile "/home/u" "/b.jpg")
        (_cachePoster "/home/u" 64 "/b.jpg" (some "http://image.tmdb.org/t/p//w185//b.jpg")
          none warmStorage).2)).2.fetches =
      [("http://image.tmdb.org/t/p//w185//b.jpg",
        "/home/u/.cache/antergos-search-providers-gnome/b.jpg")] := by
  refine ⟨by decide, ?_⟩
  have h := (C11_cachePoster_fetches_once "/home/u" "/b.jpg"
    "http://image.tmdb.org/t/p//w185//b.jpg" 64 none warmStorage (by decide) (by decide)).1
    (by decide)
  exact h.2.trans (by decide)

/-! ## The timer invariant -/

theorem getResultSet_timers (error : Option String) (result : Option Response)
    (callback : Callback) (timeoutId : Nat) (w w' : World)
    (h : _getResultSet error result callback timeoutId w = .ok w') :
    w'.timers = w.timers := by
  unfold _getResultSet at h
  split at h
  · exact absurd h (by simp)
  · injection h with h
    subst h
    simp [invoke]
  · split at h <;>
    · injection h with h
      subst h
      simp [invoke, showMessage]

theorem step_response_frame (w : World) (r : Request) (error : Option String)
    (result : Option Response) :
    (step w (.response r error result)).timers = w.timers ∧
    (step w (.response r error result)).provider.timeoutId = w.provider.timeoutId := by
  simp only [step]
  split
  · cases hres : _getResultSet error result r.callback r.timeoutId w with
    | error e => simp [settle]
    | ok w' =>
      exact ⟨getResultSet_timers _ _ _ _ _ _ hres, (getResultSet_frame _ _ _ _ _ _ hres).1⟩
  · simp

theorem searchCalls_append_singleton (evs : List Event) (ev : Event) :
    searchCalls (evs ++ [ev]) = searchCalls evs ++ ev.call?.toList := by
  cases ev <;> simp [searchCalls, List.filterMap_append, Event.call?]

/-- Along every run from a state without armed timers, with positive timer
ids, either no timer is armed or the only armed timer is that of the most
recent triggered search call and `_timeoutId` holds its id. -/
theorem run_timers (w0 : World) (hidle : w0.timers = []) (evs : List Event)
    (hpos : ∀ c ∈ searchCalls evs, 0 < c.newId) :
    (run w0 evs).timers = [] ∨
    ∃ c, lastTriggered (searchCalls evs) = some c ∧ (run w0 evs).timers = [c.timer] ∧
      (run w0 evs).provider.timeoutId = c.newId ∧ 0 < c.newId := by
  induction evs using List.reverseRecOn with
  | nil => exact Or.inl hidle
  | append_singleton evs ev ih =>
    have hsc := searchCalls_append_singleton evs ev
    have hpos' : ∀ c ∈ searchCalls evs, 0 < c.newId := by
      intro c hc
      apply hpos c
      rw [hsc]
      exact List.mem_append_left _ hc
    have ih := ih hpos'
    have hrun : run w0 (evs ++ [ev]) = step (run w0 evs) ev := by
      simp [run, List.foldl_append]
    have hinv : ∀ t ∈ (run w0 evs).timers,
        t.id = (run w0 evs).provider.timeoutId ∧ 0 < t.id := by
      intro t ht
      rcases ih with h0 | ⟨c, _, hc, htok, hcpos⟩
      · simp [h0] at ht
      · rw [hc] at ht
        have htc : t = c.timer := by simpa using ht
        subst htc
        exact ⟨htok.symm, hcpos⟩
    rw [hrun, hsc]
    cases ev with
    | search c =>
      have hc : 0 < c.newId := by
        apply hpos c
        rw [hsc]
        simp [Event.call?]
      have hlist : searchCalls evs ++ (Event.search c).call?.toList = searchCalls evs ++ [c] := by
        simp [Event.call?]
      rw [hlist, lastTriggered_append_singleton]
      by_cases ht : triggered c.terms = true
      · right
        refine ⟨c, by simp [ht], ?_, ?_, hc⟩
        · rw [step_search_triggered c _ ht]
          show (if 0 < (run w0 evs).provider.timeoutId then _ else _) ++ [c.timer] = [c.timer]
          rw [filter_pending_eq_nil _ hinv]
          rfl
        · rw [step_search_triggered c _ ht]
      · have ht' : triggered c.terms = false := by simpa using ht
        rw [step_search_untriggered c _ ht', if_neg ht]
        exact ih
    | timeout t =>
      have hlist : searchCalls evs ++ (Event.timeout t).call?.toList = searchCalls evs := by
        simp [Event.call?]
      rw [hlist]
      by_cases hmem : t ∈ (run w0 evs).timers
      · left
        have hstep : step (run w0 evs) (.timeout t) = fire t (run w0 evs) := by
          show (if t ∈ (run w0 evs).timers then fire t (run w0 evs) else run w0 evs) = _
          rw [if_pos hmem]
        rw [hstep]
        rcases ih with h0 | ⟨c, _, hc, _, _⟩
        · simp [h0] at hmem
        · rw [hc] at hmem
          have htc : t = c.timer := by simpa using hmem
          subst htc
          simp [fire, timerAction, Api.searchEntities, hc]
      · have hstep : step (run w0 evs) (.timeout t) = run w0 evs := by
          show (if t ∈ (run w0 evs).timers then fire t (run w0 evs) else run w0 evs) = _
          rw [if_neg hmem]
        rw [hstep]
        exact ih
    | response r error result =>
      have hlist : searchCalls evs ++ (Event.response r error result).call?.toList =
          searchCalls evs := by
        simp [Event.call?]
      obtain ⟨htim, htok⟩ := step_response_frame (run w0 evs) r error result
      rw [hlist, htim, htok]
      exact ih

/-- C12: in every state the provider reaches from `_init` by search calls
through either entry point with any terms, timer firings and response
arrivals, the main loop handing out positive timer ids, at most one search
timer is armed; an armed timer has `_timeoutId` as its id, and it is the
timer armed by the most recent triggered search call, carrying that call's
terms and callback. -/
theorem C12_at_most_one_timer (lang : String) (evs : List Event)
    (hpos : ∀ c ∈ searchCalls evs, 0 < c.newId) :
    (run (initWorld lang) evs).timers.length ≤ 1 ∧
    ∀ t ∈ (run (initWorld lang) evs).timers,
      t.id = (run (initWorld lang) evs).provider.timeoutId ∧
      ∃ c, lastTriggered (searchCalls evs) = some c ∧
        t.terms = c.terms ∧ t.callback = c.callback ∧ t.id = c.newId := by
  rcases run_timers (initWorld lang) rfl evs hpos with h0 | ⟨c, hlast, hc, htok, _⟩
  · simp [h0]
  · rw [hc]
    refine ⟨by simp, ?_⟩
    intro t ht
    have htc : t = c.timer := by simpa using ht
    subst htc
    exact ⟨htok.symm, c, hlast, rfl, rfl, rfl⟩

/-- C12 at work: at the end of `sampleRun` the only armed timer is that of
`mv aliens`, the most recent triggered call. -/
theorem C12_at_most_one_timer_witness :
    (∀ c ∈ searchCalls sampleRun, 0 < c.newId) ∧
    (run (initWorld "en") sampleRun).timers = [callAliens.timer] ∧
    (run (initWorld "en") sampleRun).timers.length ≤ 1 ∧
    ∀ t ∈ (run (initWorld "en") sampleRun).timers,
      t.id = (run (initWorld "en") sampleRun).provider.timeoutId ∧
      ∃ c, lastTriggered (searchCalls sampleRun) = some c ∧
        t.terms = c.terms ∧ t.callback = c.callback ∧ t.id = c.newId :=
  ⟨by decide, by decide, C12_at_most_one_timer "en" sampleRun (by decide)⟩

end Movies
